import Mathlib

/-!
Shallow embedding of the Tutors-nightmare language-learning chatbot backend
(src/db.py, src/main.py) and proofs about the behaviour its specification
describes.  SQLite tables are modelled as Lean lists of row structures kept in
rowid (insertion) order; `INSERT OR REPLACE` deletes the conflicting row and
appends the fresh one at the end, which is how SQLite assigns the new rowid.
Timestamps (ISO-8601 strings in the code, compared lexicographically, which
agrees with chronological order) are modelled as natural numbers counting
seconds.
-/

/-! ## Translation cache (src/db.py: message_translations table) -/

/-- One row of the `message_translations` table: columns `text`,
`translated_text`, `created_at`, with `PRIMARY KEY (text, translated_text)`. -/
structure TransEntry where
  text : String
  translated : String
  createdAt : Nat
deriving Repr, DecidableEq

/-- `INSERT OR REPLACE INTO message_translations VALUES (t, tr, now)`:
the conflicting row (same primary-key pair) is deleted and the fresh row is
appended with a new rowid. -/
def insertOrReplaceTranslation (cache : List TransEntry) (t tr : String) (now : Nat) :
    List TransEntry :=
  cache.filter (fun e => ¬(e.text = t ∧ e.translated = tr)) ++ [⟨t, tr, now⟩]

/-- `db.save_translation(message, translated_text)`: stores both
`(message → translated_text)` and `(translated_text → message)` so the cache
is bidirectional (src/db.py lines 578-607). -/
def save_translation (cache : List TransEntry) (message translated_text : String)
    (now : Nat) : List TransEntry :=
  insertOrReplaceTranslation
    (insertOrReplaceTranslation cache message translated_text now)
    translated_text message now

/-- `db.get_translation(message)`: `SELECT translated_text FROM
message_translations WHERE text = ? LIMIT 1` (src/db.py lines 610-623).  The
query has no ORDER BY; it is modelled as the first matching row in rowid
(insertion) order. -/
def get_translation (cache : List TransEntry) (message : String) : Option String :=
  (cache.find? (fun e => e.text = message)).map (·.translated)

/-- A cache state reachable by a sequence of `save_translation` calls starting
from the empty table; each element of `saves` is `(message, translation, time)`. -/
def cacheOfSaves (saves : List (String × String × Nat)) : List TransEntry :=
  saves.foldl (fun c s => save_translation c s.1 s.2.1 s.2.2) []

/-- The symmetry invariant of the spec: whenever an entry `(a → b)` exists,
the entry `(b → a)` also exists. -/
def cacheSymmetric (cache : List TransEntry) : Prop :=
  ∀ e ∈ cache, ∃ e' ∈ cache, e'.text = e.translated ∧ e'.translated = e.text

/-- Membership in the table after one `save_translation` call, unfolded. -/
theorem mem_save_translation {e : TransEntry} {c : List TransEntry} {x y : String}
    {n : Nat} :
    e ∈ save_translation c x y n ↔
      ((e ∈ c ∧ ¬(e.text = x ∧ e.translated = y)) ∨ e = ⟨x, y, n⟩) ∧
          ¬(e.text = y ∧ e.translated = x) ∨
        e = ⟨y, x, n⟩ := by
  simp only [save_translation, insertOrReplaceTranslation, List.mem_filter,
    List.mem_append, List.mem_singleton, decide_eq_true_eq]

/-- `save_translation` keeps the cache symmetric. -/
theorem save_translation_symmetric (c : List TransEntry) (x y : String) (n : Nat)
    (h : cacheSymmetric c) : cacheSymmetric (save_translation c x y n) := by
  intro e he
  rcases mem_save_translation.mp he with (⟨(⟨hec, h1⟩ | rfl), h2⟩ | rfl)
  · obtain ⟨e', he', ht, htr⟩ := h e hec
    refine ⟨e', ?_, ht, htr⟩
    refine mem_save_translation.mpr (Or.inl ⟨Or.inl ⟨he', ?_⟩, ?_⟩)
    · rintro ⟨hx, hy⟩
      exact h2 ⟨htr ▸ hy, ht ▸ hx⟩
    · rintro ⟨hx, hy⟩
      exact h1 ⟨htr ▸ hy, ht ▸ hx⟩
  · exact ⟨⟨y, x, n⟩, mem_save_translation.mpr (Or.inr rfl), rfl, rfl⟩
  · by_cases hxy : x = y
    · subst hxy
      exact ⟨⟨x, x, n⟩, mem_save_translation.mpr (Or.inr rfl), rfl, rfl⟩
    · refine ⟨⟨x, y, n⟩, mem_save_translation.mpr (Or.inl ⟨Or.inr rfl, ?_⟩), rfl, rfl⟩
      rintro ⟨hx, -⟩
      exact hxy hx

/-- Every cache reachable by `save_translation` calls from the empty table is
symmetric. -/
theorem cacheOfSaves_symmetric (saves : List (String × String × Nat)) :
    cacheSymmetric (cacheOfSaves saves) := by
  suffices h : ∀ c, cacheSymmetric c →
      cacheSymmetric (saves.foldl (fun c s => save_translation c s.1 s.2.1 s.2.2) c) by
    exact h [] (by intro e he; cases he)
  induction saves with
  | nil => intro c hc; exact hc
  | cons s rest ih =>
      intro c hc
      exact ih _ (save_translation_symmetric c s.1 s.2.1 s.2.2 hc)

/-- `find?` on a text key skips a block of rows none of which carries that key. -/
theorem find?_text_append_of_fresh (l₁ l₂ : List TransEntry) (x : String)
    (h : ∀ e ∈ l₁, e.text ≠ x) :
    List.find? (fun e => e.text = x) (l₁ ++ l₂) =
      List.find? (fun e => e.text = x) l₂ := by
  rw [List.find?_append]
  have hnone : List.find? (fun e => e.text = x) l₁ = none := by
    rw [List.find?_eq_none]
    intro e he
    simpa using h e he
  rw [hnone, Option.none_or]

/-- After saving `(x → y)` into a cache none of whose rows has source text `x`
or `y`, looking up `x` yields `y` and looking up `y` yields `x`. -/
theorem get_translation_save_fresh (c : List TransEntry) (x y : String) (n : Nat)
    (hfresh : ∀ e ∈ c, e.text ≠ x ∧ e.text ≠ y) :
    get_translation (save_translation c x y n) x = some y ∧
      get_translation (save_translation c x y n) y = some x := by
  have hshape : save_translation c x y n =
      (c.filter (fun e => ¬(e.text = x ∧ e.translated = y))).filter
          (fun e => ¬(e.text = y ∧ e.translated = x)) ++
        (([⟨x, y, n⟩] : List TransEntry).filter
          (fun e => ¬(e.text = y ∧ e.translated = x)) ++ [⟨y, x, n⟩]) := by
    simp [save_translation, insertOrReplaceTranslation, List.filter_append,
      List.append_assoc]
  have hft : ∀ z : String, (∀ e ∈ c, e.text ≠ z) →
      get_translation (save_translation c x y n) z =
        (List.find? (fun e => e.text = z)
          ((([⟨x, y, n⟩] : List TransEntry).filter
            (fun e => ¬(e.text = y ∧ e.translated = x))) ++ [⟨y, x, n⟩])).map
          (·.translated) := by
    intro z hz
    rw [get_translation, hshape, find?_text_append_of_fresh]
    intro e he
    exact hz e (List.mem_of_mem_filter (List.mem_of_mem_filter he))
  constructor
  · rw [hft x (fun e he => (hfresh e he).1)]
    by_cases hxy : x = y
    · subst hxy
      simp
    · have hkeep : ([⟨x, y, n⟩] : List TransEntry).filter
          (fun e => ¬(e.text = y ∧ e.translated = x)) = [⟨x, y, n⟩] := by
        simp only [List.filter_eq_self, List.mem_singleton]
        rintro e rfl
        simp only [decide_eq_true_eq]
        rintro ⟨hx, -⟩
        exact hxy hx
      rw [hkeep]
      simp
  · rw [hft y (fun e he => (hfresh e he).2)]
    by_cases hxy : x = y
    · subst hxy
      simp
    · have hskip : (fun (e : TransEntry) => decide (e.text = y)) ⟨x, y, n⟩ = false := by
        simp [hxy]
      simp [List.find?, hskip, hxy]

/-- C1 counterexample: with a pre-existing entry `("a" → "z")`, saving
`("a" → "b")` does not make `get_translation "a"` return `"b"` — the older row
is found first, so the claim fails as stated. -/
theorem get_translation_after_save_counterexample :
    ¬(get_translation
        (save_translation (save_translation [] "a" "z" 0) "a" "b" 1) "a" =
      some "b") := by
  decide

/-- C1 (amended): the translation cache built by any sequence of
`save_translation` calls is symmetric — whenever `(a → b)` exists, `(b → a)`
exists — and after `save_translation x y` on a cache none of whose rows has
source text `x` or `y`, `get_translation x = some y` and
`get_translation y = some x`.  (Unconditionally, a pre-existing row for `x`
can shadow the new one, as the counterexample shows.) -/
theorem translation_cache_symmetric_and_fresh_roundtrip :
    (∀ saves : List (String × String × Nat), cacheSymmetric (cacheOfSaves saves)) ∧
      (∀ (c : List TransEntry) (x y : String) (n : Nat),
        (∀ e ∈ c, e.text ≠ x ∧ e.text ≠ y) →
          get_translation (save_translation c x y n) x = some y ∧
            get_translation (save_translation c x y n) y = some x) :=
  ⟨cacheOfSaves_symmetric, get_translation_save_fresh⟩

/-- Witness for C1: instantiating the amended theorem on a fresh pair over a
concrete one-entry cache. -/
theorem translation_cache_symmetric_and_fresh_roundtrip_witness :
    get_translation
        (save_translation (cacheOfSaves [("p", "q", 0)]) "hello" "world" 1)
        "hello" = some "world" :=
  (translation_cache_symmetric_and_fresh_roundtrip.2
    (cacheOfSaves [("p", "q", 0)]) "hello" "world" 1 (by decide)).1

/-! ## /api/translate handler (src/main.py lines 788-823) -/

/-- Python truthiness test `if cached:` on the result of `get_translation`:
a hit only when an entry exists and its value is a non-empty string. -/
def isCacheHit (cache : List TransEntry) (t : String) : Bool :=
  match get_translation cache t with
  | some s => s ≠ ""
  | none => false

/-- The handler's scanning loop: walk the input list from the front, collecting
cached translations, and stop at the first miss; returns the collected hits and
the untranslated suffix (`text[first_new_msg_index:]`). -/
def translateLoop (cache : List TransEntry) : List String → List String × List String
  | [] => ([], [])
  | t :: rest =>
    match get_translation cache t with
    | some s =>
        if s ≠ "" then
          let r := translateLoop cache rest
          (s :: r.1, r.2)
        else ([], t :: rest)
    | none => ([], t :: rest)

/-- Saving loop `for index, item in enumerate(text_to_translate):
save_translation(item, new_translations[index])`. -/
def saveAllTranslations (cache : List TransEntry) (pairs : List (String × String))
    (now : Nat) : List TransEntry :=
  pairs.foldl (fun c p => save_translation c p.1 p.2 now) cache

/-- The `/api/translate` handler in list mode (a single string is wrapped into
a one-element list and unwrapped on output).  Returns the response list and the
cache after the handler's `save_translation` calls; `none` models the
`IndexError` that `new_translations[index]` raises when the LLM returns fewer
translations than the texts sent. -/
def translateHandler (cache : List TransEntry) (llm : List String → List String)
    (now : Nat) (texts : List String) : Option (List String × List TransEntry) :=
  let scanned := translateLoop cache texts
  if scanned.2.isEmpty then some (scanned.1, cache)
  else
    let newTs := llm scanned.2
    if newTs.length < scanned.2.length then none
    else some (scanned.1 ++ newTs,
      saveAllTranslations cache (scanned.2.zip newTs) now)

/-- The value a cache hit contributes to the response. -/
def cachedValue (cache : List TransEntry) (t : String) : String :=
  (get_translation cache t).getD ""

/-- The scanning loop returns exactly the cached values of the longest
contiguous hit run at the front, and the rest of the list untouched. -/
theorem translateLoop_eq_takeWhile_dropWhile (cache : List TransEntry)
    (texts : List String) :
    translateLoop cache texts =
      ((texts.takeWhile (isCacheHit cache)).map (cachedValue cache),
        texts.dropWhile (isCacheHit cache)) := by
  induction texts with
  | nil => rfl
  | cons t rest ih =>
      simp only [translateLoop, List.takeWhile_cons, List.dropWhile_cons]
      cases hgt : get_translation cache t with
      | none =>
          have hmiss : isCacheHit cache t = false := by simp [isCacheHit, hgt]
          simp [hmiss]
      | some s =>
          by_cases hs : s = ""
          · subst hs
            have hmiss : isCacheHit cache t = false := by simp [isCacheHit, hgt]
            simp [hmiss]
          · have hhit : isCacheHit cache t = true := by simp [isCacheHit, hgt, hs]
            simp [hhit, hs, ih, cachedValue, hgt]

/-- When at least one text misses and the LLM answers one translation per
text sent, the handler returns the cached run followed by the LLM's batch
output in order, and saves each new pair. -/
theorem translateHandler_batch (cache : List TransEntry)
    (llm : List String → List String) (now : Nat) (texts : List String)
    (hlen : (llm (texts.dropWhile (isCacheHit cache))).length =
      (texts.dropWhile (isCacheHit cache)).length)
    (hmiss : texts.dropWhile (isCacheHit cache) ≠ []) :
    translateHandler cache llm now texts =
      some ((texts.takeWhile (isCacheHit cache)).map (cachedValue cache) ++
          llm (texts.dropWhile (isCacheHit cache)),
        saveAllTranslations cache
          ((texts.dropWhile (isCacheHit cache)).zip
            (llm (texts.dropWhile (isCacheHit cache)))) now) := by
  unfold translateHandler
  rw [translateLoop_eq_takeWhile_dropWhile]
  simp [hmiss, hlen, List.isEmpty_iff]

/-- C2: the `/api/translate` handler scans from the front returning cached
translations for the longest contiguous run of cache hits; the first miss
sends the whole remaining suffix to the LLM in one batched call preserving
order, each new pair is saved, and the batch output is appended in order.
Concretely, for `[cached1, cached2, new1]` with the first two pre-seeded the
response is `[t1, t2, translated(new1)]` and exactly one new bidirectional
pair (two rows) is inserted. -/
theorem translate_scans_cached_run_then_batches :
    (∀ (cache : List TransEntry) (texts : List String),
      translateLoop cache texts =
        ((texts.takeWhile (isCacheHit cache)).map (cachedValue cache),
          texts.dropWhile (isCacheHit cache))) ∧
      (∀ (cache : List TransEntry) (llm : List String → List String) (now : Nat)
          (texts : List String),
        (llm (texts.dropWhile (isCacheHit cache))).length =
            (texts.dropWhile (isCacheHit cache)).length →
          texts.dropWhile (isCacheHit cache) ≠ [] →
            translateHandler cache llm now texts =
              some ((texts.takeWhile (isCacheHit cache)).map (cachedValue cache) ++
                  llm (texts.dropWhile (isCacheHit cache)),
                saveAllTranslations cache
                  ((texts.dropWhile (isCacheHit cache)).zip
                    (llm (texts.dropWhile (isCacheHit cache)))) now)) ∧
        translateHandler
            (cacheOfSaves [("cached1", "t1", 0), ("cached2", "t2", 0)])
            (fun l => l.map (fun s => "T-" ++ s)) 1
            ["cached1", "cached2", "new1"] =
          some (["t1", "t2", "T-new1"],
            [⟨"cached1", "t1", 0⟩, ⟨"t1", "cached1", 0⟩, ⟨"cached2", "t2", 0⟩,
              ⟨"t2", "cached2", 0⟩, ⟨"new1", "T-new1", 1⟩, ⟨"T-new1", "new1", 1⟩]) :=
  ⟨translateLoop_eq_takeWhile_dropWhile, translateHandler_batch, by decide⟩

/-- Witness for C2: the batch conjunct applied at a concrete empty cache and
one-element input. -/
theorem translate_scans_cached_run_then_batches_witness :
    translateHandler [] (fun l => l.map (fun _ => "y")) 0 ["x"] =
      some (["y"], saveAllTranslations [] [("x", "y")] 0) := by
  rw [translate_scans_cached_run_then_batches.2.1 []
    (fun l => l.map (fun _ => "y")) 0 ["x"] (by decide) (by decide)]
  decide

/-- C10: a cached empty-string translation is treated as a miss by the
handler: the truthiness test `if cached:` fails, the scan stops there, and
the whole remaining list (that text included) goes to the LLM. -/
theorem empty_cached_translation_is_public_miss (cache : List TransEntry)
    (llm : List String → List String) (now : Nat) (t : String)
    (rest : List String) (hempty : get_translation cache t = some "") :
    isCacheHit cache t = false ∧
      translateLoop cache (t :: rest) = ([], t :: rest) ∧
        ((llm (t :: rest)).length = (t :: rest).length →
          (translateHandler cache llm now (t :: rest)).map Prod.fst =
            some (llm (t :: rest))) := by
  have hmiss : isCacheHit cache t = false := by simp [isCacheHit, hempty]
  have hloop : translateLoop cache (t :: rest) = ([], t :: rest) := by
    simp [translateLoop, hempty]
  refine ⟨hmiss, hloop, fun hlen => ?_⟩
  unfold translateHandler
  rw [hloop]
  simp [hlen]

/-- Witness for C10: a concrete cache storing the empty string for "hello". -/
theorem empty_cached_translation_is_public_miss_witness :
    isCacheHit [(⟨"hello", "", 5⟩ : TransEntry)] "hello" = false ∧
      (translateHandler [(⟨"hello", "", 5⟩ : TransEntry)]
          (fun l => l.map (fun s => s ++ "!")) 7 ["hello", "more"]).map Prod.fst =
        some ["hello!", "more!"] := by
  have h := empty_cached_translation_is_public_miss
    [(⟨"hello", "", 5⟩ : TransEntry)] (fun l => l.map (fun s => s ++ "!")) 7
    "hello" ["more"] (by decide)
  exact ⟨h.1, by rw [h.2.2 (by decide)]; decide⟩

/-! ## Redirect-target sanitizer (src/main.py lines 202-209) -/

/-- Python `s.startswith(pre)`. -/
def pyStartsWith (s pre : String) : Bool := pre.data.isPrefixOf s.data

/-- `_sanitize_next_path(raw_next)`: falsy input (None or the empty string),
input not starting with a single `/`, and input pointing back at the auth page
are all replaced by `/`. -/
def sanitize_next_path (rawNext : Option String) : String :=
  match rawNext with
  | none => "/"
  | some s =>
    if s = "" then "/"
    else if !pyStartsWith s "/" || pyStartsWith s "//" then "/"
    else if s = "/auth" || pyStartsWith s "/auth?" then "/"
    else s

/-- C9: every output of the sanitizer starts with a single `/` (never `//`),
is not `/auth` and does not start with `/auth?`; any input violating one of
these conditions (None included) comes out as `/`. -/
theorem sanitize_next_path_safe :
    (∀ raw : Option String,
      pyStartsWith (sanitize_next_path raw) "/" = true ∧
        pyStartsWith (sanitize_next_path raw) "//" = false ∧
          sanitize_next_path raw ≠ "/auth" ∧
            pyStartsWith (sanitize_next_path raw) "/auth?" = false) ∧
      sanitize_next_path none = "/" ∧
        (∀ s : String,
          pyStartsWith s "/" = false ∨ pyStartsWith s "//" = true ∨ s = "/auth" ∨
              pyStartsWith s "/auth?" = true →
            sanitize_next_path (some s) = "/") := by
  refine ⟨?_, rfl, ?_⟩
  · intro raw
    match raw with
    | none => exact ⟨by decide, by decide, by decide, by decide⟩
    | some s =>
        simp only [sanitize_next_path]
        split_ifs with h1 h2 h3
        · exact ⟨by decide, by decide, by decide, by decide⟩
        · exact ⟨by decide, by decide, by decide, by decide⟩
        · exact ⟨by decide, by decide, by decide, by decide⟩
        · have hA : pyStartsWith s "/" = true := by
            cases hb : pyStartsWith s "/" with
            | false => exact absurd (by simp [hb]) h2
            | true => rfl
          have hB : pyStartsWith s "//" = false := by
            cases hb : pyStartsWith s "//" with
            | true => exact absurd (by simp [hb]) h2
            | false => rfl
          have hC : s ≠ "/auth" := fun hs => h3 (by simp [hs])
          have hD : pyStartsWith s "/auth?" = false := by
            cases hb : pyStartsWith s "/auth?" with
            | true => exact absurd (by simp [hb]) h3
            | false => rfl
          exact ⟨hA, hB, hC, hD⟩
  · intro s hviol
    simp only [sanitize_next_path]
    split_ifs with h1 h2 h3
    · rfl
    · rfl
    · rfl
    · exfalso
      rcases hviol with hv | hv | hv | hv
      · exact h2 (by simp [hv])
      · exact h2 (by simp [hv])
      · exact h3 (by simp [hv])
      · exact h3 (by simp [hv])

/-- Witness for C9: the implication conjunct applied to the open-redirect
input "//evil.example". -/
theorem sanitize_next_path_safe_witness :
    sanitize_next_path (some "//evil.example") = "/" :=
  sanitize_next_path_safe.2.2 "//evil.example" (Or.inr (Or.inl (by decide)))

/-! ## Chat turn fallback (src/main.py lines 758-785) -/

/-- Python whitespace characters recognised by `str.strip()` (ASCII range). -/
def isPyWhitespace (c : Char) : Bool :=
  c == ' ' || c == '\t' || c == '\n' || c == '\r' || c == Char.ofNat 11 ||
    c == Char.ofNat 12

/-- `text.strip()`: remove leading and trailing whitespace. -/
def pyStrip (s : String) : String :=
  ⟨((s.data.dropWhile isPyWhitespace).reverse.dropWhile isPyWhitespace).reverse⟩

/-- The fixed apology substituted when the LLM call fails. -/
def apologyText : String := "Sorry something went wrong. Let's try again!"

/-- One row of the `messages` table (src/db.py lines 538-555). -/
structure MessageRow where
  conversationId : String
  role : String
  lang : String
  text : String
  createdAt : Nat
deriving Repr, DecidableEq

/-- The `/api/chat` response model (`ChatResponse` in src/main.py). -/
structure ChatResponseModel where
  conversation_id : String
  assistant_text : String
  assistant_lang : String
deriving Repr, DecidableEq

/-- The tail of the `/api/chat` handler: `llm.generate_reply` either raises
(`Except.error`) or returns text; empty or whitespace-only text raises
`RuntimeError("Empty response from LLM")` inside the same `try`, and any
exception is caught and replaced by the fixed apology string.  The assistant
message is then inserted into the conversation's message list before the
response is built from the same text. -/
def chatAssistantTurn (messages : List MessageRow) (conversationId lang : String)
    (llmResult : Except String String) (now : Nat) :
    List MessageRow × ChatResponseModel :=
  let assistantText :=
    match llmResult with
    | .error _ => apologyText
    | .ok t => if t = "" ∨ (pyStrip t).length = 0 then apologyText else t
  (messages ++ [⟨conversationId, "assistant", lang, assistantText, now⟩],
    ⟨conversationId, assistantText, lang⟩)

/-- C8: whenever the LLM call raises or returns empty/whitespace-only text the
response's assistant text is the fixed apology string, and in every case the
assistant message holding exactly the returned text is appended to the
conversation's messages by the time the response exists. -/
theorem chat_llm_failure_falls_back_and_persists
    (messages : List MessageRow) (cid lang : String)
    (llmResult : Except String String) (now : Nat) :
    (chatAssistantTurn messages cid lang llmResult now).1 =
        messages ++ [⟨cid, "assistant", lang,
          (chatAssistantTurn messages cid lang llmResult now).2.assistant_text,
          now⟩] ∧
      (∀ e, llmResult = .error e →
        (chatAssistantTurn messages cid lang llmResult now).2.assistant_text =
          apologyText) ∧
        (∀ t, llmResult = .ok t → (pyStrip t).length = 0 →
          (chatAssistantTurn messages cid lang llmResult now).2.assistant_text =
            apologyText) := by
  refine ⟨rfl, ?_, ?_⟩
  · rintro e rfl
    rfl
  · rintro t rfl hlen
    simp [chatAssistantTurn, hlen]

/-- Witness for C8: an LLM exception and a whitespace-only reply both yield
the apology, and the fallback message is persisted. -/
theorem chat_llm_failure_falls_back_and_persists_witness :
    (chatAssistantTurn [] "c1" "en" (Except.error "timeout") 3).2.assistant_text =
        apologyText ∧
      (chatAssistantTurn [] "c1" "en" (Except.ok "  \n ") 3).2.assistant_text =
        apologyText ∧
      (chatAssistantTurn [] "c1" "en" (Except.error "timeout") 3).1 =
        [⟨"c1", "assistant", "en", apologyText, 3⟩] :=
  ⟨(chat_llm_failure_falls_back_and_persists [] "c1" "en"
      (Except.error "timeout") 3).2.1 "timeout" rfl,
    (chat_llm_failure_falls_back_and_persists [] "c1" "en"
      (Except.ok "  \n ") 3).2.2 "  \n " rfl (by decide),
    by rw [(chat_llm_failure_falls_back_and_persists [] "c1" "en"
        (Except.error "timeout") 3).1,
      (chat_llm_failure_falls_back_and_persists [] "c1" "en"
        (Except.error "timeout") 3).2.1 "timeout" rfl]; rfl⟩

/-! ## Per-IP auth failure throttling (src/main.py lines 45-47, 168-192,
481-515) -/

def AUTH_RATE_LIMIT_WINDOW_SECONDS : Nat := 15 * 60

def AUTH_RATE_LIMIT_MAX_FAILURES : Nat := 10

/-- The in-process `AUTH_FAILURES_BY_IP` dict, as a total map from IP to the
recorded failure timestamps (a missing key reads as the empty list, matching
`dict.get(ip, [])`). -/
def RateState : Type := String → List Nat

/-- `_prune_failures(ip)`: drop timestamps older than the window and store the
pruned list back; returns the pruned list together with the updated dict. -/
def prune_failures (st : RateState) (ip : String) (now : Nat) :
    List Nat × RateState :=
  let cutoff := now - AUTH_RATE_LIMIT_WINDOW_SECONDS
  let recent := (st ip).filter (fun ts => cutoff ≤ ts)
  (recent, fun k => if k = ip then recent else st k)

/-- `_check_auth_rate_limit(ip)`: `true` means the HTTP 429 "Too many
authentication attempts" exception is raised. -/
def check_auth_rate_limit (st : RateState) (ip : String) (now : Nat) :
    Bool × RateState :=
  let pruned := prune_failures st ip now
  (AUTH_RATE_LIMIT_MAX_FAILURES ≤ pruned.1.length, pruned.2)

/-- `_record_auth_failure(ip)`: prune, then append the current time. -/
def record_auth_failure (st : RateState) (ip : String) (now : Nat) : RateState :=
  let pruned := prune_failures st ip now
  fun k => if k = ip then pruned.1 ++ [now] else pruned.2 k

/-- `_clear_auth_failures(ip)`: `AUTH_FAILURES_BY_IP.pop(ip, None)` — the key
reads as the empty list afterwards. -/
def clear_auth_failures (st : RateState) (ip : String) : RateState :=
  fun k => if k = ip then [] else st k

/-- Outcome of one `/api/auth/login` (or `/api/auth/register`) attempt. -/
inductive AuthOutcome where
  | rateLimited
  | invalidCredentials
  | success
deriving Repr, DecidableEq

/-- One auth attempt from `ip` at time `now`: the handler first calls
`_check_auth_rate_limit` (HTTP 429 before any credential is examined), then on
bad credentials records a failure (HTTP 401), and on success clears the IP's
failure history after issuing the session.  `credOk` abstracts the credential
checks (invite code/username/password) of the register and login handlers. -/
def authAttempt (st : RateState) (ip : String) (now : Nat) (credOk : Bool) :
    AuthOutcome × RateState :=
  let checked := check_auth_rate_limit st ip now
  if checked.1 then (.rateLimited, checked.2)
  else if credOk then (.success, clear_auth_failures checked.2 ip)
  else (.invalidCredentials, record_auth_failure checked.2 ip now)

/-- C4: with `AUTH_RATE_LIMIT_MAX_FAILURES` (10) failures inside the sliding
window recorded for an IP, the next attempt from that IP is rejected as
rate-limited whatever the credentials are (they are never examined: the
outcome and state are independent of `credOk`); and a successful attempt
clears the IP's whole failure history, so an immediately following attempt is
never rate-limited. -/
theorem auth_rate_limit_blocks_and_success_resets :
    (∀ (st : RateState) (ip : String) (now : Nat) (credOk : Bool),
      AUTH_RATE_LIMIT_MAX_FAILURES ≤
          ((st ip).filter
            (fun ts => now - AUTH_RATE_LIMIT_WINDOW_SECONDS ≤ ts)).length →
        (authAttempt st ip now credOk).1 = .rateLimited ∧
          authAttempt st ip now credOk = authAttempt st ip now (!credOk)) ∧
      (∀ (st : RateState) (ip : String) (now : Nat),
        (authAttempt st ip now true).1 = .success →
          (authAttempt st ip now true).2 ip = [] ∧
            ∀ now' : Nat,
              (check_auth_rate_limit (authAttempt st ip now true).2 ip now').1 =
                false) := by
  constructor
  · intro st ip now credOk hcount
    have hblock : (check_auth_rate_limit st ip now).1 = true := by
      simpa [check_auth_rate_limit, prune_failures] using hcount
    constructor
    · simp [authAttempt, hblock]
    · simp [authAttempt, hblock]
  · intro st ip now hsucc
    have hnoblock : (check_auth_rate_limit st ip now).1 = false := by
      by_contra h
      have h' : (check_auth_rate_limit st ip now).1 = true := by
        revert h
        cases (check_auth_rate_limit st ip now).1 <;> simp
      simp [authAttempt, h'] at hsucc
    have hstate : (authAttempt st ip now true).2 =
        clear_auth_failures (check_auth_rate_limit st ip now).2 ip := by
      simp [authAttempt, hnoblock]
    constructor
    · rw [hstate]
      simp [clear_auth_failures]
    · intro now'
      rw [hstate]
      simp [check_auth_rate_limit, prune_failures, clear_auth_failures,
        AUTH_RATE_LIMIT_MAX_FAILURES]

/-- Witness for C4: ten failures recorded one second ago block the next
attempt even with valid credentials, and after a successful attempt (no prior
failures) a following check passes. -/
theorem auth_rate_limit_blocks_and_success_resets_witness :
    (authAttempt
        (fun k => if k = "1.2.3.4" then List.replicate 10 1000 else [])
        "1.2.3.4" 1001 true).1 = AuthOutcome.rateLimited ∧
      (check_auth_rate_limit
          (authAttempt (fun _ => []) "9.9.9.9" 50 true).2 "9.9.9.9" 60).1 =
        false :=
  ⟨(auth_rate_limit_blocks_and_success_resets.1
      (fun k => if k = "1.2.3.4" then List.replicate 10 1000 else [])
      "1.2.3.4" 1001 true (by decide)).1,
    (auth_rate_limit_blocks_and_success_resets.2
      (fun _ => []) "9.9.9.9" 50 (by decide)).2 60⟩

/-! ## Auth sessions (src/db.py lines 333-430) -/

/-- One row of the `auth_sessions` table; `token_hash` is UNIQUE in the
schema. -/
structure SessionRow where
  id : String
  userId : String
  tokenHash : String
  createdAt : Nat
  expiresAt : Nat
  revokedAt : Option Nat
  ipAddress : String
  userAgent : String
deriving Repr, DecidableEq

/-- A row of the `users` table (the fields the session JOIN selects). -/
structure UserRow where
  id : String
  username : String
  displayName : String
  createdAt : Nat
  lastSeenAt : Nat
deriving Repr, DecidableEq

/-- `db.revoke_auth_session(token_hash)`: `UPDATE auth_sessions SET
revoked_at = now WHERE token_hash = ? AND revoked_at IS NULL` (src/db.py lines
416-430).  An UPDATE, not a DELETE: the rows themselves stay. -/
def revoke_auth_session (sessions : List SessionRow) (tokenHash : String)
    (now : Nat) : List SessionRow :=
  sessions.map (fun r =>
    if r.tokenHash = tokenHash ∧ r.revokedAt = none then
      { r with revokedAt := some now }
    else r)

/-- `db.get_active_session_by_token_hash(token_hash)`: the first session row
with this token hash that is neither revoked nor expired
(`revoked_at IS NULL AND expires_at > now`), joined with its user row
(src/db.py lines 362-396). -/
def get_active_session_by_token_hash (sessions : List SessionRow)
    (users : List UserRow) (tokenHash : String) (now : Nat) :
    Option (SessionRow × UserRow) :=
  match sessions.find? (fun r =>
      r.tokenHash = tokenHash ∧ r.revokedAt = none ∧ now < r.expiresAt) with
  | none => none
  | some s => (users.find? (fun u => u.id = s.userId)).map (fun u => (s, u))

/-- C5: after logout runs `revoke_auth_session` on a token's hash, no active
session is returned for that hash at any later time — the token never
authenticates again — while the table keeps the same number of rows, every
row with that hash carries a `revoked_at` timestamp, and all other columns of
every row are untouched (revocation is an update, not a delete). -/
theorem revoked_token_never_authenticates (sessions : List SessionRow)
    (users : List UserRow) (tokenHash : String) (tRevoke tQuery : Nat) :
    get_active_session_by_token_hash (revoke_auth_session sessions tokenHash tRevoke)
        users tokenHash tQuery = none ∧
      (revoke_auth_session sessions tokenHash tRevoke).length = sessions.length ∧
        ((revoke_auth_session sessions tokenHash tRevoke).all
            (fun r => r.tokenHash ≠ tokenHash || r.revokedAt.isSome)) = true ∧
          (revoke_auth_session sessions tokenHash tRevoke).map
              (fun r => (r.id, r.userId, r.tokenHash, r.createdAt, r.expiresAt,
                r.ipAddress, r.userAgent)) =
            sessions.map (fun r => (r.id, r.userId, r.tokenHash, r.createdAt,
              r.expiresAt, r.ipAddress, r.userAgent)) := by
  refine ⟨?_, ?_, ?_, ?_⟩
  · have hnone : (revoke_auth_session sessions tokenHash tRevoke).find? (fun r =>
        r.tokenHash = tokenHash ∧ r.revokedAt = none ∧ tQuery < r.expiresAt) =
          none := by
      rw [List.find?_eq_none]
      intro r hr
      obtain ⟨r₀, hr₀, hmap⟩ := List.mem_map.mp hr
      by_cases hcond : r₀.tokenHash = tokenHash ∧ r₀.revokedAt = none
      · rw [if_pos hcond] at hmap
        subst hmap
        simp
      · rw [if_neg hcond] at hmap
        subst hmap
        simp only [decide_eq_true_eq, not_and]
        intro h1 h2
        exact absurd ⟨h1, h2⟩ hcond
    rw [get_active_session_by_token_hash, hnone]
  · simp [revoke_auth_session]
  · rw [List.all_eq_true]
    intro r hr
    obtain ⟨r₀, hr₀, hmap⟩ := List.mem_map.mp hr
    by_cases hcond : r₀.tokenHash = tokenHash ∧ r₀.revokedAt = none
    · rw [if_pos hcond] at hmap
      subst hmap
      simp
    · rw [if_neg hcond] at hmap
      subst hmap
      rcases Decidable.not_and_iff_or_not.mp hcond with h | h
      · simp [h]
      · have : r₀.revokedAt.isSome := by
          cases hro : r₀.revokedAt with
          | none => exact absurd hro h
          | some t => rfl
        simp [this]
  · rw [revoke_auth_session, List.map_map]
    apply List.map_congr_left
    intro r hr
    by_cases hcond : r.tokenHash = tokenHash ∧ r.revokedAt = none
    · simp [hcond]
    · simp [hcond]

/-! ## Conversation ownership (src/db.py lines 490-535, src/main.py lines
701-716 and 826-837) -/

/-- One row of the `conversations` table; `id` is the PRIMARY KEY, `user_id`
is nullable (legacy rows). -/
structure ConversationRow where
  id : String
  primaryLang : String
  secondaryLang : String
  mode : String
  createdAt : Nat
  userId : Option String
deriving Repr, DecidableEq

/-- `db.create_conversation(...)`: INSERT of a new row. -/
def create_conversation (db : List ConversationRow) (conversationId : String)
    (primaryLang secondaryLang mode : String) (now : Nat)
    (userId : Option String) : List ConversationRow :=
  db ++ [⟨conversationId, primaryLang, secondaryLang, mode, now, userId⟩]

/-- `db.get_conversation(conversation_id, user_id)`: with a user id the SELECT
is `WHERE id = ? AND user_id = ?`, scoping the lookup to that user
(src/db.py lines 516-535). -/
def get_conversation (db : List ConversationRow) (conversationId : String)
    (userId : Option String) : Option ConversationRow :=
  match userId with
  | none => db.find? (fun r => r.id = conversationId)
  | some uid => db.find? (fun r => r.id = conversationId ∧ r.userId = some uid)

/-- The ownership gate of `/api/chat` when a conversation id is supplied
(src/main.py lines 713-716): a failed scoped lookup is HTTP 404
"Conversation not found". -/
def chatConversationLookup (db : List ConversationRow) (conversationId : String)
    (currentUserId : String) : Except Nat ConversationRow :=
  match get_conversation db conversationId (some currentUserId) with
  | none => .error 404
  | some c => .ok c

/-- The ownership gate of `GET /api/conversations/{id}` (src/main.py lines
835-837): identical scoped lookup, HTTP 404 on failure. -/
def conversationHistoryLookup (db : List ConversationRow)
    (conversationId : String) (currentUserId : String) :
    Except Nat ConversationRow :=
  match get_conversation db conversationId (some currentUserId) with
  | none => .error 404
  | some c => .ok c

/-- C7: if every row with a given conversation id is owned by user `A` (as
after `create_conversation` under `A`, the id being the primary key), then
for any other user `B` the scoped lookup finds nothing and both the
`/api/chat` gate and the `GET /api/conversations/{id}` gate answer HTTP 404. -/
theorem conversation_of_other_user_is_not_found (db : List ConversationRow)
    (conversationId : String) (a b : String) (hne : a ≠ b)
    (howner : ∀ r ∈ db, r.id = conversationId → r.userId = some a) :
    get_conversation db conversationId (some b) = none ∧
      chatConversationLookup db conversationId b = .error 404 ∧
        conversationHistoryLookup db conversationId b = .error 404 := by
  have hnone : get_conversation db conversationId (some b) = none := by
    rw [get_conversation, List.find?_eq_none]
    intro r hr
    simp only [decide_eq_true_eq, not_and]
    intro hid huid
    have := howner r hr hid
    rw [this] at huid
    exact hne (Option.some_injective _ huid)
  exact ⟨hnone, by rw [chatConversationLookup, hnone], by
    rw [conversationHistoryLookup, hnone]⟩

/-- Witness for C7: a conversation created by user "alice" is a 404 for user
"bob" on both endpoints. -/
theorem conversation_of_other_user_is_not_found_witness :
    get_conversation
        (create_conversation [] "conv1" "de" "en" "chat" 0 (some "alice"))
        "conv1" (some "bob") = none ∧
      chatConversationLookup
          (create_conversation [] "conv1" "de" "en" "chat" 0 (some "alice"))
          "conv1" "bob" = .error 404 ∧
        conversationHistoryLookup
            (create_conversation [] "conv1" "de" "en" "chat" 0 (some "alice"))
            "conv1" "bob" = .error 404 :=
  conversation_of_other_user_is_not_found
    (create_conversation [] "conv1" "de" "en" "chat" 0 (some "alice"))
    "conv1" "alice" "bob" (by decide) (by decide)

/-! ## Conversation starter refresh cooldown (src/main.py lines 575-644,
src/db.py lines 646-674 and 741-771) -/

/-- One row of the `conversation_starters` table (the columns the refresh
pipeline writes). -/
structure StarterRow where
  id : String
  title : String
  opener : String
  rank : Nat
  createdAt : Nat
deriving Repr, DecidableEq

/-- A fetched Reddit post (what the cooldown claim needs of it). -/
structure RedditPost where
  title : String
  score : Nat
deriving Repr, DecidableEq

/-- The persistent state the refresh endpoint touches: the starter table and
the per-IP refresh log (`get_last_refresh_time` / `update_refresh_time`). -/
structure StarterState where
  starters : List StarterRow
  refreshLog : String → Option Nat

/-- Outcome of `POST /api/conversation_starters/refresh`. -/
inductive RefreshOutcome where
  | rateLimited (retryAfterSeconds : Int)
  | upstreamError (status : Nat)
  | ok (count : Nat)
deriving Repr, DecidableEq

/-- The part of the handler past the cooldown gate: fetch posts (HTTP 502 on
failure or an empty feed), generate starters via the LLM with the
deterministic fallback on failure (HTTP 500 when both fail), then replace the
whole starter set and update the IP's refresh time. -/
def refreshPipeline (st : StarterState) (ip : String) (now : Nat)
    (fetchResult : Except String (List RedditPost))
    (genResult : List RedditPost → Except String (List StarterRow))
    (fallbackResult : List RedditPost → List StarterRow) :
    RefreshOutcome × StarterState :=
  match fetchResult with
  | .error _ => (.upstreamError 502, st)
  | .ok posts =>
    if posts.isEmpty then (.upstreamError 502, st)
    else
      let generated :=
        match genResult posts with
        | .ok rows => some rows
        | .error _ =>
          let fb := fallbackResult posts
          if fb.isEmpty then none else some fb
      match generated with
      | none => (.upstreamError 500, st)
      | some rows =>
        (.ok rows.length,
          { starters := rows,
            refreshLog := fun k => if k = ip then some now else st.refreshLog k })

/-- `refresh_conversation_starters` (src/main.py lines 575-595): when the IP
has a recorded last refresh and `now - last_refresh < cooldown` the handler
raises HTTP 429 whose detail carries
`retry_after_seconds = int((cooldown - (now - last_refresh)).total_seconds())`
and touches nothing; otherwise the pipeline runs.  The datetime subtraction is
modelled on `Int` seconds. -/
def refresh_conversation_starters (st : StarterState) (ip : String) (now : Nat)
    (cooldownMinutes : Nat)
    (fetchResult : Except String (List RedditPost))
    (genResult : List RedditPost → Except String (List StarterRow))
    (fallbackResult : List RedditPost → List StarterRow) :
    RefreshOutcome × StarterState :=
  match st.refreshLog ip with
  | some last =>
    if (now : Int) - (last : Int) < (cooldownMinutes : Int) * 60 then
      (.rateLimited ((cooldownMinutes : Int) * 60 - ((now : Int) - (last : Int))),
        st)
    else refreshPipeline st ip now fetchResult genResult fallbackResult
  | none => refreshPipeline st ip now fetchResult genResult fallbackResult

/-- C6: a second refresh from the same IP strictly within the cooldown of the
recorded last refresh fails rate-limited with `retry_after_seconds` equal to
the remaining wait, a value between 0 and the configured cooldown; the state
is returned untouched and the outcome does not depend on the fetch, LLM or
fallback oracles — nothing is fetched, generated or replaced. -/
theorem starter_refresh_cooldown_rejects (st : StarterState) (ip : String)
    (now cooldownMinutes last : Nat)
    (fetchResult : Except String (List RedditPost))
    (genResult : List RedditPost → Except String (List StarterRow))
    (fallbackResult : List RedditPost → List StarterRow)
    (hlast : st.refreshLog ip = some last) (hle : last ≤ now)
    (hwithin : now - last < cooldownMinutes * 60) :
    refresh_conversation_starters st ip now cooldownMinutes fetchResult
        genResult fallbackResult =
      (.rateLimited ((cooldownMinutes : Int) * 60 - ((now : Int) - (last : Int))),
        st) ∧
      0 ≤ (cooldownMinutes : Int) * 60 - ((now : Int) - (last : Int)) ∧
        (cooldownMinutes : Int) * 60 - ((now : Int) - (last : Int)) ≤
          (cooldownMinutes : Int) * 60 := by
  have hcond : (now : Int) - (last : Int) < (cooldownMinutes : Int) * 60 := by
    omega
  refine ⟨?_, by omega, by omega⟩
  rw [refresh_conversation_starters, hlast]
  simp only [hcond, if_true]

/-- Witness for C6: last refresh at t=100, second call at t=150 with a
5-minute cooldown is rejected with 250 seconds left to wait. -/
theorem starter_refresh_cooldown_rejects_witness :
    refresh_conversation_starters
        ⟨[], fun k => if k = "10.0.0.1" then some 100 else none⟩
        "10.0.0.1" 150 5 (Except.ok [⟨"p", 3⟩])
        (fun _ => Except.ok [⟨"s", "t", "o", 0, 150⟩]) (fun _ => []) =
      (.rateLimited 250,
        ⟨[], fun k => if k = "10.0.0.1" then some 100 else none⟩) :=
  (starter_refresh_cooldown_rejects
      ⟨[], fun k => if k = "10.0.0.1" then some 100 else none⟩
      "10.0.0.1" 150 5 100 (Except.ok [⟨"p", 3⟩])
      (fun _ => Except.ok [⟨"s", "t", "o", 0, 150⟩]) (fun _ => [])
      rfl (by decide) (by decide)).1

/-! ## Password hashing (src/main.py lines 94-148) -/

/-- A byte, as `os.urandom`, `bytes.fromhex` and the KDF digests handle them. -/
abbrev Byte := Fin 256

/-- One lowercase hex digit, as `bytes.hex()` prints them (`0`-`9`, `a`-`f`). -/
def hexDigitChar (n : Nat) : Char :=
  if n < 10 then Char.ofNat (48 + n) else Char.ofNat (87 + n)

/-- The two hex digits of one byte. -/
def byteHexChars (b : Byte) : List Char :=
  [hexDigitChar (b.val / 16), hexDigitChar (b.val % 16)]

/-- `bs.hex()`: the lowercase hex string of a byte string. -/
def bytesHexChars (bs : List Byte) : List Char := bs.flatMap byteHexChars

/-- The value of one hex digit (`bytes.fromhex` accepts both cases). -/
def hexCharVal (c : Char) : Option (Fin 16) :=
  if h : 48 ≤ c.toNat ∧ c.toNat ≤ 57 then some ⟨c.toNat - 48, by omega⟩
  else if h' : 97 ≤ c.toNat ∧ c.toNat ≤ 102 then some ⟨c.toNat - 87, by omega⟩
  else if h'' : 65 ≤ c.toNat ∧ c.toNat ≤ 70 then some ⟨c.toNat - 55, by omega⟩
  else none

/-- `bytes.fromhex`: pairs of hex digits to bytes, failing (a raised
`ValueError`, caught by `_verify_password`) on odd length or a stray
character. -/
def hexToBytes : List Char → Option (List Byte)
  | [] => some []
  | c1 :: c2 :: rest =>
    match hexCharVal c1, hexCharVal c2, hexToBytes rest with
    | some hi, some lo, some bs =>
      some (⟨hi.val * 16 + lo.val, by
        have h1 := hi.isLt
        have h2 := lo.isLt
        omega⟩ :: bs)
    | _, _, _ => none
  | [_] => none

/-- Python `stored_hash.split("$")`: split on every occurrence, keeping empty
pieces. -/
def splitOnChar (sep : Char) : List Char → List (List Char)
  | [] => [[]]
  | c :: rest =>
    if c = sep then [] :: splitOnChar sep rest
    else
      match splitOnChar sep rest with
      | [] => [[c]]
      | piece :: t => (c :: piece) :: t

/-- Python `int(raw)` on the decimal parameter fields of a stored hash. -/
def parseDecimalCore : List Char → Nat → Option Nat
  | [], acc => some acc
  | c :: rest, acc =>
    if 48 ≤ c.toNat ∧ c.toNat ≤ 57 then
      parseDecimalCore rest (acc * 10 + (c.toNat - 48))
    else none

def parseDecimal (l : List Char) : Option Nat :=
  if l.isEmpty then none else parseDecimalCore l 0

/-- The key-derivation primitives, abstracted: `scryptByte password salt n r p
i` is byte `i` of the scrypt stream for those parameters, and `pbkdf2Byte
hashName password salt iterations i` likewise for PBKDF2; `dklen` bytes of
output are the first `dklen` bytes of the stream (both KDFs are
length-extendable).  The embedding proves nothing about the primitives
themselves, only about how `_hash_password`/`_verify_password` drive them. -/
structure KDF where
  scryptByte : List Byte → List Byte → Nat → Nat → Nat → Nat → Byte
  pbkdf2Byte : List Char → List Byte → List Byte → Nat → Nat → Byte

/-- `hashlib.scrypt(password, salt=salt, n=n, r=r, p=p, dklen=dklen)`. -/
def scryptDigest (k : KDF) (password salt : List Byte) (n r p dklen : Nat) :
    List Byte :=
  (List.range dklen).map (k.scryptByte password salt n r p)

/-- `hashlib.pbkdf2_hmac(hash_name, password, salt, iterations, dklen)`; with
no explicit `dklen` Python uses the hash's digest size (32 for sha256). -/
def pbkdf2Digest (k : KDF) (hashName : List Char) (password salt : List Byte)
    (iterations dklen : Nat) : List Byte :=
  (List.range dklen).map (k.pbkdf2Byte hashName password salt iterations)

/-- `_hash_password(password)` with the drawn `salt` made explicit: when
scrypt is available the stored string is
`"scrypt$16384$8$1$" + salt.hex() + "$" + digest.hex()` with
`n=2**14, r=8, p=1, dklen=64`; otherwise
`f"pbkdf2$sha256$260000${salt.hex()}${digest.hex()}"` with the default
32-byte sha256 digest. -/
def hash_password (k : KDF) (scryptAvailable : Bool) (password salt : List Byte) :
    List Char :=
  if scryptAvailable then
    "scrypt".data ++ ('$' :: ("16384".data ++ ('$' :: ("8".data ++ ('$' ::
      ("1".data ++ ('$' :: (bytesHexChars salt ++ ('$' ::
        bytesHexChars (scryptDigest k password salt 16384 8 1 64))))))))))
  else
    "pbkdf2".data ++ ('$' :: ("sha256".data ++ ('$' :: ("260000".data ++ ('$' ::
      (bytesHexChars salt ++ ('$' ::
        bytesHexChars (pbkdf2Digest k "sha256".data password salt 260000 32))))))))

/-- `_verify_password(password, stored_hash)`: split the stored string on
`$`, branch on the leading algorithm tag, recompute the digest with the
parameters, salt and digest length taken from the string itself, and compare.
Any parse failure (wrong field count, bad hex, bad integer) means `False`, as
does the scrypt tag when scrypt is unavailable. -/
def verify_password (k : KDF) (scryptAvailable : Bool) (password : List Byte)
    (stored : List Char) : Bool :=
  match splitOnChar '$' stored with
  | [] => false
  | alg :: rest =>
    if alg = "scrypt".data then
      match rest with
      | [nRaw, rRaw, pRaw, saltHex, digestHex] =>
        if scryptAvailable then
          match parseDecimal nRaw, parseDecimal rRaw, parseDecimal pRaw,
              hexToBytes saltHex, hexToBytes digestHex with
          | some n, some r, some p, some salt, some expected =>
            decide (scryptDigest k password salt n r p expected.length = expected)
          | _, _, _, _, _ => false
        else false
      | _ => false
    else if alg = "pbkdf2".data then
      match rest with
      | [hashName, iterRaw, saltHex, digestHex] =>
        match parseDecimal iterRaw, hexToBytes saltHex, hexToBytes digestHex with
        | some iterations, some salt, some expected =>
          decide (pbkdf2Digest k hashName password salt iterations
            expected.length = expected)
        | _, _, _ => false
      | _ => false
    else false


set_option maxRecDepth 10000

/-- Hex digits round-trip through their character. -/
theorem hexCharVal_hexDigitChar :
    ∀ n : Fin 16, hexCharVal (hexDigitChar n.val) = some n := by decide

/-- No hex digit is the `$` separator. -/
theorem dollar_not_mem_byteHexChars : ∀ b : Byte, '$' ∉ byteHexChars b := by decide

/-- A hex-printed byte string never contains the `$` separator. -/
theorem dollar_not_mem_bytesHexChars (bs : List Byte) : '$' ∉ bytesHexChars bs := by
  induction bs with
  | nil => simp [bytesHexChars]
  | cons b rest ih =>
      simp only [bytesHexChars, List.flatMap_cons, List.mem_append]
      rintro (h | h)
      · exact dollar_not_mem_byteHexChars b h
      · exact ih (by simpa [bytesHexChars] using h)

/-- Parsing the two hex digits of a byte at the front of a hex string. -/
theorem hexToBytes_byteHexChars (b : Byte) (rest : List Char) :
    hexToBytes (byteHexChars b ++ rest) =
      (hexToBytes rest).map (fun bs => b :: bs) := by
  have hd : (b.val / 16 : Nat) < 16 := by omega
  have hm : (b.val % 16 : Nat) < 16 := by omega
  have h1 := hexCharVal_hexDigitChar ⟨b.val / 16, hd⟩
  have h2 := hexCharVal_hexDigitChar ⟨b.val % 16, hm⟩
  simp only [byteHexChars, List.cons_append, List.nil_append, hexToBytes, h1, h2,
    List.append_eq]
  cases hr : hexToBytes rest with
  | none => simp [hr]
  | some bs =>
      simp only [hr, Option.map_some]
      congr 2
      refine Fin.ext ?_
      show b.val / 16 * 16 + b.val % 16 = b.val
      omega

/-- `bytes.fromhex(bs.hex()) == bs`. -/
theorem hexToBytes_bytesHexChars (bs : List Byte) :
    hexToBytes (bytesHexChars bs) = some bs := by
  induction bs with
  | nil => rfl
  | cons b rest ih =>
      have hflat : bytesHexChars (b :: rest) =
          byteHexChars b ++ bytesHexChars rest := by
        simp [bytesHexChars]
      rw [hflat, hexToBytes_byteHexChars, ih]
      rfl

/-- Splitting a separator-free string yields one piece. -/
theorem splitOnChar_noSep (sep : Char) (l : List Char) (h : sep ∉ l) :
    splitOnChar sep l = [l] := by
  induction l with
  | nil => rfl
  | cons c rest ih =>
      have hc : c ≠ sep := fun hc => h (hc ▸ List.mem_cons_self c rest)
      have hrest : sep ∉ rest := fun hr => h (List.mem_cons_of_mem c hr)
      simp only [splitOnChar, if_neg hc, ih hrest]

/-- Splitting past a separator-free piece peels it off. -/
theorem splitOnChar_append (sep : Char) (l r : List Char) (h : sep ∉ l) :
    splitOnChar sep (l ++ sep :: r) = l :: splitOnChar sep r := by
  induction l with
  | nil => simp [splitOnChar]
  | cons c l' ih =>
      have hc : c ≠ sep := fun hc => h (hc ▸ List.mem_cons_self c l')
      have hl : sep ∉ l' := fun hm => h (List.mem_cons_of_mem c hm)
      show splitOnChar sep (c :: (l' ++ sep :: r)) = (c :: l') :: splitOnChar sep r
      simp only [splitOnChar, if_neg hc]
      rw [ih hl]

/-- C3: for every password and salt, and whether or not scrypt is available
(the same availability at hash and verify time), verifying a freshly produced
hash succeeds: the stored string alone carries the algorithm tag, its
parameters, the salt and the digest, and `_verify_password` recomputes the
same digest from the parsed fields without external configuration. -/
theorem verify_password_of_hash_password (k : KDF) (scryptAvailable : Bool)
    (password salt : List Byte) :
    verify_password k scryptAvailable password
      (hash_password k scryptAvailable password salt) = true := by
  cases scryptAvailable with
  | true =>
      have hsplit : splitOnChar '$' (hash_password k true password salt) =
          ["scrypt".data, "16384".data, "8".data, "1".data, bytesHexChars salt,
            bytesHexChars (scryptDigest k password salt 16384 8 1 64)] := by
        rw [hash_password, if_pos rfl,
          splitOnChar_append '$' "scrypt".data _ (by decide),
          splitOnChar_append '$' "16384".data _ (by decide),
          splitOnChar_append '$' "8".data _ (by decide),
          splitOnChar_append '$' "1".data _ (by decide),
          splitOnChar_append '$' (bytesHexChars salt) _
            (dollar_not_mem_bytesHexChars salt),
          splitOnChar_noSep '$' _ (dollar_not_mem_bytesHexChars _)]
      have hn : parseDecimal "16384".data = some 16384 := by decide
      have hr8 : parseDecimal "8".data = some 8 := by decide
      have hp1 : parseDecimal "1".data = some 1 := by decide
      have hlen : (scryptDigest k password salt 16384 8 1 64).length = 64 := by
        simp [scryptDigest]
      unfold verify_password
      rw [hsplit]
      simp [hn, hr8, hp1, hexToBytes_bytesHexChars, hlen]
  | false =>
      have hsplit : splitOnChar '$' (hash_password k false password salt) =
          ["pbkdf2".data, "sha256".data, "260000".data, bytesHexChars salt,
            bytesHexChars (pbkdf2Digest k "sha256".data password salt 260000 32)] := by
        rw [hash_password, if_neg (by decide),
          splitOnChar_append '$' "pbkdf2".data _ (by decide),
          splitOnChar_append '$' "sha256".data _ (by decide),
          splitOnChar_append '$' "260000".data _ (by decide),
          splitOnChar_append '$' (bytesHexChars salt) _
            (dollar_not_mem_bytesHexChars salt),
          splitOnChar_noSep '$' _ (dollar_not_mem_bytesHexChars _)]
      have hi : parseDecimal "260000".data = some 260000 := by decide
      have hlen : (pbkdf2Digest k "sha256".data password salt 260000 32).length =
          32 := by simp [pbkdf2Digest]
      unfold verify_password
      rw [hsplit]
      simp [hi, hexToBytes_bytesHexChars, hlen]
